import Mathlib

/-!
Shallow embedding of the money-transfer core of the
`go-fiber-postgres-REST-boilerplate` repository.

The transactional orchestrator (`TransferTx`), the transaction manager
(`execTX`), the helper `addMoney` and the HTTP handler `createTransfer`
are translated from the Go source.  The sqlc-generated query layer
(`Queries.CreateTransfer`, `Queries.CreateEntry`,
`Queries.AddAccountBalance`, `Queries.GetAccount`) is not part of the
provided sources, so those operations are modelled from the
specification (spec sections 3, 4.2, 4.3).

Machine `int64` values are modelled as unbounded `Int`; the storage
engine is modelled as an explicit state (`DBState`) together with an
injected-failure schedule and an engine-failure configuration
(`Engine`), so that atomicity and rollback behaviour can be stated and
proved about every failure path.
-/

/-- Modelled from the spec (section 3): a persisted account row.
The `created_at` timestamp is engine-generated and irrelevant to every
property below, so it is omitted. -/
structure Account where
  id : Int
  owner : String
  balance : Int
  currency : String
deriving Repr, DecidableEq

/-- Modelled from the spec (section 3): an immutable ledger entry row. -/
structure Entry where
  id : Int
  accountId : Int
  amount : Int
deriving Repr, DecidableEq

/-- Modelled from the spec (section 3): an immutable transfer row. -/
structure Transfer where
  id : Int
  fromAccountId : Int
  toAccountId : Int
  amount : Int
deriving Repr, DecidableEq

/-- Modelled from the spec (section 6): the durable state of the three
relations, plus the id generators for the two append-only relations. -/
structure DBState where
  accounts : List Account
  entries : List Entry
  transfers : List Transfer
  nextEntryId : Int
  nextTransferId : Int
deriving Repr, DecidableEq

/-- Observable query events, used to state in which order the query
layer is invoked (the deadlock-ordering property is about this order). -/
inductive QEvent where
  | createTransferEv (fromAccountId toAccountId amount : Int)
  | createEntryEv (accountId amount : Int)
  | addBalanceEv (id amount : Int)
deriving Repr, DecidableEq

/-- Go `error` values that the embedded code can produce or receive. -/
inductive GoError where
  | engineErr
  | noRows
  | errMsg (s : String)
  | txRb (txErr rbErr : GoError)
deriving Repr, DecidableEq

/-- State threaded through the query layer: the durable database, the
schedule of injected engine failures (one Boolean consumed per query
call), and the append-only trace of issued query calls. -/
structure QCtx where
  db : DBState
  faults : List Bool
  trace : List QEvent
deriving Repr, DecidableEq

/-- Engine-level failure configuration of one `execTX` run: whether
`BeginTx`, `Rollback` and `Commit` fail, and with which errors. -/
structure Engine where
  beginFails : Bool
  beginErr : GoError
  rollbackFails : Bool
  rbErr : GoError
  commitFails : Bool
  commitErr : GoError
deriving Repr, DecidableEq

/-- Go zero value of `Account`. -/
def defaultAccount : Account := ⟨0, "", 0, ""⟩

/-- Go zero value of `Entry`. -/
def defaultEntry : Entry := ⟨0, 0, 0⟩

/-- Go zero value of `Transfer`. -/
def defaultTransfer : Transfer := ⟨0, 0, 0, 0⟩

/-- Atomic `balance = balance + amount` applied to the rows whose id
matches, exactly as a single SQL UPDATE statement does. -/
def applyAdd (l : List Account) (id amt : Int) : List Account :=
  l.map fun b => if b.id = id then { b with balance := b.balance + amt } else b

namespace Queries

/-- Modelled from the spec (section 4.2):
`CreateTransfer(from_account_id, to_account_id, amount) → Transfer`.
Appends a fresh transfer row; an injected engine failure makes the call
return the Go zero value and an error. -/
def CreateTransfer (ctx : QCtx) (fromAccountId toAccountId amount : Int) :
    QCtx × Transfer × Option GoError :=
  let f := ctx.faults.headD false
  let ctx1 : QCtx :=
    { db := ctx.db, faults := ctx.faults.tail,
      trace := ctx.trace ++ [.createTransferEv fromAccountId toAccountId amount] }
  if f then (ctx1, defaultTransfer, some .engineErr)
  else
    let t : Transfer := ⟨ctx.db.nextTransferId, fromAccountId, toAccountId, amount⟩
    let db1 : DBState := { ctx.db with
      transfers := ctx.db.transfers ++ [t]
      nextTransferId := ctx.db.nextTransferId + 1 }
    ({ ctx1 with db := db1 }, t, none)

/-- Modelled from the spec (section 4.2):
`CreateEntry(account_id, amount) → Entry`.  Appends a fresh entry row. -/
def CreateEntry (ctx : QCtx) (accountId amount : Int) :
    QCtx × Entry × Option GoError :=
  let f := ctx.faults.headD false
  let ctx1 : QCtx :=
    { db := ctx.db, faults := ctx.faults.tail,
      trace := ctx.trace ++ [.createEntryEv accountId amount] }
  if f then (ctx1, defaultEntry, some .engineErr)
  else
    let e : Entry := ⟨ctx.db.nextEntryId, accountId, amount⟩
    let db1 : DBState := { ctx.db with
      entries := ctx.db.entries ++ [e]
      nextEntryId := ctx.db.nextEntryId + 1 }
    ({ ctx1 with db := db1 }, e, none)

/-- Modelled from the spec (section 4.3): the balance adjustment is the
single atomic statement `balance = balance + amount` returning the
updated row, with a no-rows error when the account does not exist. -/
def AddAccountBalance (ctx : QCtx) (id amount : Int) :
    QCtx × Account × Option GoError :=
  let f := ctx.faults.headD false
  let ctx1 : QCtx :=
    { db := ctx.db, faults := ctx.faults.tail,
      trace := ctx.trace ++ [.addBalanceEv id amount] }
  if f then (ctx1, defaultAccount, some .engineErr)
  else
    match ctx.db.accounts.find? (fun b => b.id == id) with
    | none => (ctx1, defaultAccount, some .noRows)
    | some a =>
        ({ ctx1 with db := { ctx.db with accounts := applyAdd ctx.db.accounts id amount } },
         { a with balance := a.balance + amount }, none)

/-- Modelled from the spec (section 4.2):
`GetAccount(id) → Account | NotFoundError`, a pure point read. -/
def GetAccount (db : DBState) (id : Int) : Except GoError Account :=
  match db.accounts.find? (fun b => b.id == id) with
  | none => .error .noRows
  | some a => .ok a

end Queries

/-- Input parameters of `TransferTx`, from the Go `TransferTxParams`. -/
structure TransferTxParams where
  fromAccountID : Int
  toAccountID : Int
  amount : Int
deriving Repr, DecidableEq

/-- Result record of `TransferTx`, from the Go `TransferTxResult`. -/
structure TransferTxResult where
  transfer : Transfer
  fromAccount : Account
  toAccount : Account
  fromEntry : Entry
  toEntry : Entry
deriving Repr, DecidableEq

/-- Go zero value of `TransferTxResult`. -/
def defaultTxResult : TransferTxResult :=
  ⟨defaultTransfer, defaultAccount, defaultAccount, defaultEntry, defaultEntry⟩

/-- Transaction manager, translated from `execTX` in the Go source: it
begins a transaction, runs `fn` on it, rolls back on error (combining
the two errors if the rollback itself fails) and commits otherwise.
Rollback and a failed commit restore the durable database; the trace of
issued calls and the consumed failure schedule are not undone. -/
def execTX {ρ : Type} (eng : Engine) (ctx : QCtx) (r0 : ρ)
    (fn : QCtx → QCtx × ρ × Option GoError) : QCtx × ρ × Option GoError :=
  if eng.beginFails then (ctx, r0, some eng.beginErr)
  else
    match fn ctx with
    | (ctx1, r, some e) =>
        if eng.rollbackFails then
          ({ ctx1 with db := ctx.db }, r, some (.txRb e eng.rbErr))
        else ({ ctx1 with db := ctx.db }, r, some e)
    | (ctx1, r, none) =>
        if eng.commitFails then ({ ctx1 with db := ctx.db }, r, some eng.commitErr)
        else (ctx1, r, none)

/-- Helper translated from `addMoney` in the Go source: adjusts the two
balances in the given order, stopping at the first error. -/
def addMoney (ctx : QCtx) (accountID1 amount1 accountID2 amount2 : Int) :
    QCtx × Account × Account × Option GoError :=
  match Queries.AddAccountBalance ctx accountID1 amount1 with
  | (ctx1, acc1, some e) => (ctx1, acc1, defaultAccount, some e)
  | (ctx1, acc1, none) =>
      match Queries.AddAccountBalance ctx1 accountID2 amount2 with
      | (ctx2, acc2, e) => (ctx2, acc1, acc2, e)

/-- Body of the closure passed to `execTX` by `TransferTx` in the Go
source: create the transfer row, the two entries, then adjust the two
balances, adjusting the numerically smaller account id first. -/
def transferTxWork (arg : TransferTxParams) (ctx : QCtx) :
    QCtx × TransferTxResult × Option GoError :=
  match Queries.CreateTransfer ctx arg.fromAccountID arg.toAccountID arg.amount with
  | (ctx1, t, e1) =>
    let r1 := { defaultTxResult with transfer := t }
    match e1 with
    | some e => (ctx1, r1, some e)
    | none =>
      match Queries.CreateEntry ctx1 arg.fromAccountID (-arg.amount) with
      | (ctx2, fe, e2) =>
        let r2 := { r1 with fromEntry := fe }
        match e2 with
        | some e => (ctx2, r2, some e)
        | none =>
          match Queries.CreateEntry ctx2 arg.toAccountID arg.amount with
          | (ctx3, te, e3) =>
            let r3 := { r2 with toEntry := te }
            match e3 with
            | some e => (ctx3, r3, some e)
            | none =>
              if arg.fromAccountID < arg.toAccountID then
                match addMoney ctx3 arg.fromAccountID (-arg.amount) arg.toAccountID arg.amount with
                | (ctx4, a1, a2, e4) =>
                    (ctx4, { r3 with fromAccount := a1, toAccount := a2 }, e4)
              else
                match addMoney ctx3 arg.toAccountID arg.amount arg.fromAccountID (-arg.amount) with
                | (ctx4, a1, a2, e4) =>
                    (ctx4, { r3 with toAccount := a1, fromAccount := a2 }, e4)

/-- Transfer orchestrator, translated from `TransferTx` in the Go
source: the whole unit of work runs under `execTX`. -/
def TransferTx (eng : Engine) (arg : TransferTxParams) (ctx : QCtx) :
    QCtx × TransferTxResult × Option GoError :=
  execTX eng ctx defaultTxResult (transferTxWork arg)

/-- Request body of the POST /transfers handler, from the Go
`transferRequest`. -/
structure transferRequest where
  fromAccountID : Int
  toAccountID : Int
  amount : Int
  currency : String
deriving Repr, DecidableEq

/-- HTTP handler translated from `createTransfer` in `api/transfer.go`
(after body parsing): amount and currency validation, `validAccount`
for the source account, authentication and ownership checks,
`validAccount` for the destination account, then `TransferTx`.  The
result is the HTTP status code and the post-state; `isSupported` stands
for `util.IsSupportedCurrency` and `authPayload` for the authenticated
username extracted from the token payload. -/
def createTransfer (isSupported : String → Bool) (authPayload : Option String)
    (eng : Engine) (ctx : QCtx) (req : transferRequest) : Nat × QCtx :=
  if req.amount ≤ 0 then (400, ctx)
  else if ¬ isSupported req.currency then (400, ctx)
  else
    match Queries.GetAccount ctx.db req.fromAccountID with
    | .error _ => (404, ctx)
    | .ok fromAccount =>
      if fromAccount.currency ≠ req.currency then (400, ctx)
      else
        match authPayload with
        | none => (401, ctx)
        | some username =>
          if fromAccount.owner ≠ username then (401, ctx)
          else
            match Queries.GetAccount ctx.db req.toAccountID with
            | .error _ => (404, ctx)
            | .ok toAccount =>
              if toAccount.currency ≠ req.currency then (400, ctx)
              else
                match TransferTx eng ⟨req.fromAccountID, req.toAccountID, req.amount⟩ ctx with
                | (ctx1, _, some _) => (500, ctx1)
                | (ctx1, _, none) => (200, ctx1)

/-- Balance of the account with the given id (0 when absent). -/
def balanceOf (db : DBState) (id : Int) : Int :=
  match db.accounts.find? (fun b => b.id == id) with
  | some a => a.balance
  | none => 0

/-- Sum of the amounts of all entries referencing the given account id. -/
def entriesSum (db : DBState) (id : Int) : Int :=
  ((db.entries.filter (fun e => e.accountId == id)).map Entry.amount).sum

/-- Balance-reconciliation invariant: every account's balance is the sum
of its entries' amounts. -/
def Reconciled (db : DBState) : Prop :=
  ∀ a ∈ db.accounts, a.balance = entriesSum db a.id

instance (db : DBState) : Decidable (Reconciled db) := by
  unfold Reconciled; infer_instance

/-- Projection of a trace event to a balance-adjustment call, as a pair
of account id and delta. -/
def addEv : QEvent → Option (Int × Int)
  | .addBalanceEv id amt => some (id, amt)
  | _ => none

/-- Final account rows after the two balance adjustments of one
transfer, in the order the source issues them. -/
def updatedAccounts (accs : List Account) (f t a : Int) : List Account :=
  if f < t then applyAdd (applyAdd accs f (-a)) t a
  else applyAdd (applyAdd accs t a) f (-a)


/-- Sample engine in which begin, rollback and commit all work. -/
def engOK : Engine := ⟨false, .engineErr, false, .engineErr, false, .engineErr⟩

/-- Sample ledger context: accounts 1 and 2 with balances 100 and 50,
no entries, no transfers, no injected failures. -/
def ctxAB : QCtx :=
  ⟨⟨[⟨1, "alice", 100, "USD"⟩, ⟨2, "bob", 50, "USD"⟩], [], [], 1, 1⟩, [], []⟩

/-- Sample reconciled ledger context: each balance equals the sum of the
account's entries. -/
def ctxRec : QCtx :=
  ⟨⟨[⟨1, "alice", 100, "USD"⟩, ⟨2, "bob", 50, "USD"⟩],
    [⟨1, 1, 100⟩, ⟨2, 2, 50⟩], [], 3, 1⟩, [], []⟩

/-- Sequential composition of transfer attempts: the post-state of each
call feeds the next. -/
def runTransfers : List (Engine × TransferTxParams) → QCtx → QCtx
  | [], ctx => ctx
  | (eng, arg) :: rest, ctx => runTransfers rest (TransferTx eng arg ctx).1

/-- All calls of the sequence completed without error. -/
def runTransfersOk : List (Engine × TransferTxParams) → QCtx → Bool
  | [], _ => true
  | (eng, arg) :: rest, ctx =>
      match TransferTx eng arg ctx with
      | (ctx1, _, none) => runTransfersOk rest ctx1
      | _ => false

/-- Whenever `execTX` reports an error, the durable database is the one
it started from. -/
theorem execTX_db_of_err {ρ : Type} (eng : Engine) (ctx : QCtx) (r0 : ρ)
    (fn : QCtx → QCtx × ρ × Option GoError) (e : GoError)
    (h : (execTX eng ctx r0 fn).2.2 = some e) :
    (execTX eng ctx r0 fn).1.db = ctx.db := by
  unfold execTX at *
  rcases hfn : fn ctx with ⟨ctx1, r, e?⟩
  cases e? <;> split at h <;> simp_all [hfn] <;> split at h <;> simp_all

/-- When `execTX` reports no error, the engine started and committed and
the outcome is exactly the outcome of the supplied work function. -/
theorem execTX_of_ok {ρ : Type} (eng : Engine) (ctx : QCtx) (r0 : ρ)
    (fn : QCtx → QCtx × ρ × Option GoError)
    (h : (execTX eng ctx r0 fn).2.2 = none) :
    eng.beginFails = false ∧ eng.commitFails = false ∧
      execTX eng ctx r0 fn = fn ctx := by
  unfold execTX at *
  rcases hfn : fn ctx with ⟨ctx1, r, e?⟩
  cases e? <;> split at h <;> simp_all [hfn] <;> split at h <;> simp_all

/-- Run of `execTX` when the engine works and the work function
succeeds. -/
theorem execTX_run_ok {ρ : Type} (eng : Engine) (ctx : QCtx) (r0 : ρ)
    (fn : QCtx → QCtx × ρ × Option GoError)
    (hb : eng.beginFails = false) (hc : eng.commitFails = false)
    (hfn : (fn ctx).2.2 = none) :
    execTX eng ctx r0 fn = fn ctx := by
  unfold execTX
  rcases h : fn ctx with ⟨ctx1, r, e?⟩
  rw [h] at hfn
  cases e? <;> simp_all

/-- Run of `Queries.CreateTransfer` without an injected failure. -/
theorem createTransfer_run_ok (ctx : QCtx) (f t a : Int)
    (h : ctx.faults.headD false = false) :
    Queries.CreateTransfer ctx f t a =
      (⟨⟨ctx.db.accounts, ctx.db.entries,
         ctx.db.transfers ++ [⟨ctx.db.nextTransferId, f, t, a⟩],
         ctx.db.nextEntryId, ctx.db.nextTransferId + 1⟩,
        ctx.faults.tail, ctx.trace ++ [.createTransferEv f t a]⟩,
       ⟨ctx.db.nextTransferId, f, t, a⟩, none) := by
  obtain ⟨⟨accs, es, ts, ne, nt⟩, fl, tr⟩ := ctx
  unfold Queries.CreateTransfer
  simp_all

/-- Run of `Queries.CreateTransfer` with an injected failure. -/
theorem createTransfer_run_fault (ctx : QCtx) (f t a : Int)
    (h : ctx.faults.headD false = true) :
    Queries.CreateTransfer ctx f t a =
      (⟨ctx.db, ctx.faults.tail, ctx.trace ++ [.createTransferEv f t a]⟩,
       defaultTransfer, some .engineErr) := by
  obtain ⟨⟨accs, es, ts, ne, nt⟩, fl, tr⟩ := ctx
  unfold Queries.CreateTransfer
  simp_all

/-- Run of `Queries.CreateEntry` without an injected failure. -/
theorem createEntry_run_ok (ctx : QCtx) (aid a : Int)
    (h : ctx.faults.headD false = false) :
    Queries.CreateEntry ctx aid a =
      (⟨⟨ctx.db.accounts, ctx.db.entries ++ [⟨ctx.db.nextEntryId, aid, a⟩],
         ctx.db.transfers, ctx.db.nextEntryId + 1, ctx.db.nextTransferId⟩,
        ctx.faults.tail, ctx.trace ++ [.createEntryEv aid a]⟩,
       ⟨ctx.db.nextEntryId, aid, a⟩, none) := by
  obtain ⟨⟨accs, es, ts, ne, nt⟩, fl, tr⟩ := ctx
  unfold Queries.CreateEntry
  simp_all

/-- Run of `Queries.CreateEntry` with an injected failure. -/
theorem createEntry_run_fault (ctx : QCtx) (aid a : Int)
    (h : ctx.faults.headD false = true) :
    Queries.CreateEntry ctx aid a =
      (⟨ctx.db, ctx.faults.tail, ctx.trace ++ [.createEntryEv aid a]⟩,
       defaultEntry, some .engineErr) := by
  obtain ⟨⟨accs, es, ts, ne, nt⟩, fl, tr⟩ := ctx
  unfold Queries.CreateEntry
  simp_all

/-- Run of `Queries.AddAccountBalance` without an injected failure, on
an existing account. -/
theorem addAccountBalance_run_ok (ctx : QCtx) (id a : Int) (acc : Account)
    (h : ctx.faults.headD false = false)
    (hf : ctx.db.accounts.find? (fun b => b.id == id) = some acc) :
    Queries.AddAccountBalance ctx id a =
      (⟨⟨applyAdd ctx.db.accounts id a, ctx.db.entries, ctx.db.transfers,
         ctx.db.nextEntryId, ctx.db.nextTransferId⟩,
        ctx.faults.tail, ctx.trace ++ [.addBalanceEv id a]⟩,
       { acc with balance := acc.balance + a }, none) := by
  obtain ⟨⟨accs, es, ts, ne, nt⟩, fl, tr⟩ := ctx
  unfold Queries.AddAccountBalance
  have h1 : fl.head?.getD false = false := by simpa using h
  simp [h1, hf]

/-- Run of `Queries.AddAccountBalance` without an injected failure, on
a missing account. -/
theorem addAccountBalance_run_miss (ctx : QCtx) (id a : Int)
    (h : ctx.faults.headD false = false)
    (hf : ctx.db.accounts.find? (fun b => b.id == id) = none) :
    Queries.AddAccountBalance ctx id a =
      (⟨ctx.db, ctx.faults.tail, ctx.trace ++ [.addBalanceEv id a]⟩,
       defaultAccount, some .noRows) := by
  obtain ⟨⟨accs, es, ts, ne, nt⟩, fl, tr⟩ := ctx
  unfold Queries.AddAccountBalance
  have h1 : fl.head?.getD false = false := by simpa using h
  simp [h1, hf]

/-- Run of `Queries.AddAccountBalance` with an injected failure. -/
theorem addAccountBalance_run_fault (ctx : QCtx) (id a : Int)
    (h : ctx.faults.headD false = true) :
    Queries.AddAccountBalance ctx id a =
      (⟨ctx.db, ctx.faults.tail, ctx.trace ++ [.addBalanceEv id a]⟩,
       defaultAccount, some .engineErr) := by
  obtain ⟨⟨accs, es, ts, ne, nt⟩, fl, tr⟩ := ctx
  unfold Queries.AddAccountBalance
  simp_all

/-- A `find?` on accounts after an atomic balance update is the original
lookup with the update applied to the found row. -/
theorem find?_applyAdd (l : List Account) (id amt id2 : Int) :
    (applyAdd l id amt).find? (fun b => b.id == id2) =
      (l.find? (fun b => b.id == id2)).map
        (fun a => if a.id = id then { a with balance := a.balance + amt } else a) := by
  have hpred : ((fun b => b.id == id2) ∘
      (fun b : Account => if b.id = id then { b with balance := b.balance + amt } else b)) =
      (fun b : Account => b.id == id2) := by
    funext b; by_cases hb : b.id = id <;> simp [hb]
  unfold applyAdd
  rw [List.find?_map, hpred]

/-- Full characterization of an error-free run of the work function of
`TransferTx`: both accounts exist, the database gains exactly the
transfer row, the two entries and the two balance updates, the trace
records the five calls with the smaller-id balance update first, and
the result snapshots are as issued. -/
theorem transferTxWork_ok_char (arg : TransferTxParams) (ctx : QCtx)
    (h : (transferTxWork arg ctx).2.2 = none) :
    ∃ af at_,
      ctx.db.accounts.find? (fun b => b.id == arg.fromAccountID) = some af ∧
      ctx.db.accounts.find? (fun b => b.id == arg.toAccountID) = some at_ ∧
      (transferTxWork arg ctx).1.db =
        ⟨updatedAccounts ctx.db.accounts arg.fromAccountID arg.toAccountID arg.amount,
         ctx.db.entries ++ [⟨ctx.db.nextEntryId, arg.fromAccountID, -arg.amount⟩,
                            ⟨ctx.db.nextEntryId + 1, arg.toAccountID, arg.amount⟩],
         ctx.db.transfers ++ [⟨ctx.db.nextTransferId, arg.fromAccountID, arg.toAccountID, arg.amount⟩],
         ctx.db.nextEntryId + 2, ctx.db.nextTransferId + 1⟩ ∧
      (transferTxWork arg ctx).1.trace =
        ctx.trace ++ [.createTransferEv arg.fromAccountID arg.toAccountID arg.amount,
                      .createEntryEv arg.fromAccountID (-arg.amount),
                      .createEntryEv arg.toAccountID arg.amount] ++
          (if arg.fromAccountID < arg.toAccountID then
            [.addBalanceEv arg.fromAccountID (-arg.amount), .addBalanceEv arg.toAccountID arg.amount]
          else
            [.addBalanceEv arg.toAccountID arg.amount, .addBalanceEv arg.fromAccountID (-arg.amount)]) ∧
      (transferTxWork arg ctx).2.1 =
        ⟨⟨ctx.db.nextTransferId, arg.fromAccountID, arg.toAccountID, arg.amount⟩,
         (if arg.fromAccountID = arg.toAccountID then
            { af with balance := af.balance + arg.amount + -arg.amount }
          else { af with balance := af.balance + -arg.amount }),
         { at_ with balance := at_.balance + arg.amount },
         ⟨ctx.db.nextEntryId, arg.fromAccountID, -arg.amount⟩,
         ⟨ctx.db.nextEntryId + 1, arg.toAccountID, arg.amount⟩⟩ := by
  obtain ⟨db, fl, tr⟩ := ctx
  unfold transferTxWork at h ⊢
  by_cases h1 : fl.headD false = true
  · rw [createTransfer_run_fault _ _ _ _ h1] at h; simp at h
  · rw [Bool.not_eq_true] at h1
    rw [createTransfer_run_ok _ _ _ _ h1] at h ⊢
    dsimp only at h ⊢
    by_cases h2 : fl.tail.headD false = true
    · rw [createEntry_run_fault _ _ _ h2] at h; simp at h
    · rw [Bool.not_eq_true] at h2
      rw [createEntry_run_ok _ _ _ h2] at h ⊢
      dsimp only at h ⊢
      by_cases h3 : fl.tail.tail.headD false = true
      · rw [createEntry_run_fault _ _ _ h3] at h; simp at h
      · rw [Bool.not_eq_true] at h3
        rw [createEntry_run_ok _ _ _ h3] at h ⊢
        dsimp only at h ⊢
        by_cases hlt : arg.fromAccountID < arg.toAccountID
        · rw [if_pos hlt] at h ⊢
          unfold addMoney at h ⊢
          by_cases h4 : fl.tail.tail.tail.headD false = true
          · rw [addAccountBalance_run_fault _ _ _ h4] at h; simp at h
          · rw [Bool.not_eq_true] at h4
            cases haf : db.accounts.find? (fun b => b.id == arg.fromAccountID) with
            | none =>
                rw [addAccountBalance_run_miss _ _ _ h4 haf] at h; simp at h
            | some af =>
                rw [addAccountBalance_run_ok _ _ _ af h4 haf] at h ⊢
                dsimp only at h ⊢
                by_cases h5 : fl.tail.tail.tail.tail.headD false = true
                · rw [addAccountBalance_run_fault _ _ _ h5] at h; simp at h
                · rw [Bool.not_eq_true] at h5
                  cases hat2 : (applyAdd db.accounts arg.fromAccountID (-arg.amount)).find?
                      (fun b => b.id == arg.toAccountID) with
                  | none =>
                      rw [addAccountBalance_run_miss _ _ _ h5 hat2] at h; simp at h
                  | some at2 =>
                      rw [addAccountBalance_run_ok _ _ _ at2 h5 hat2] at h ⊢
                      dsimp only at h ⊢
                      rw [find?_applyAdd] at hat2
                      obtain ⟨at_, hat, hg⟩ := Option.map_eq_some'.mp hat2
                      have hatid : at_.id = arg.toAccountID := by
                        have := List.find?_some hat
                        simpa using this
                      have hne : arg.fromAccountID ≠ arg.toAccountID := ne_of_lt hlt
                      have hat2eq : at2 = at_ := by
                        rw [← hg, if_neg (by rw [hatid]; exact fun hh => hne hh.symm)]
                      subst hat2eq
                      refine ⟨af, at2, rfl, hat, ?_, ?_, ?_⟩
                      · simp [updatedAccounts, hlt]
                        omega
                      · simp [hlt]
                      · simp [if_neg hne]
        · rw [if_neg hlt] at h ⊢
          unfold addMoney at h ⊢
          by_cases h4 : fl.tail.tail.tail.headD false = true
          · rw [addAccountBalance_run_fault _ _ _ h4] at h; simp at h
          · rw [Bool.not_eq_true] at h4
            cases hat : db.accounts.find? (fun b => b.id == arg.toAccountID) with
            | none =>
                rw [addAccountBalance_run_miss _ _ _ h4 hat] at h; simp at h
            | some at_ =>
                rw [addAccountBalance_run_ok _ _ _ at_ h4 hat] at h ⊢
                dsimp only at h ⊢
                by_cases h5 : fl.tail.tail.tail.tail.headD false = true
                · rw [addAccountBalance_run_fault _ _ _ h5] at h; simp at h
                · rw [Bool.not_eq_true] at h5
                  cases haf2 : (applyAdd db.accounts arg.toAccountID arg.amount).find?
                      (fun b => b.id == arg.fromAccountID) with
                  | none =>
                      rw [addAccountBalance_run_miss _ _ _ h5 haf2] at h; simp at h
                  | some af2 =>
                      rw [addAccountBalance_run_ok _ _ _ af2 h5 haf2] at h ⊢
                      dsimp only at h ⊢
                      rw [find?_applyAdd] at haf2
                      obtain ⟨af, haf, hg⟩ := Option.map_eq_some'.mp haf2
                      have hafid : af.id = arg.fromAccountID := by
                        have := List.find?_some haf
                        simpa using this
                      refine ⟨af, at_, haf, rfl, ?_, ?_, ?_⟩
                      · simp [updatedAccounts, hlt]
                        omega
                      · simp [hlt]
                      · by_cases hFT : arg.fromAccountID = arg.toAccountID
                        · have haf2eq : af2 = { af with balance := af.balance + arg.amount } := by
                            rw [← hg, if_pos (by rw [hafid, hFT])]
                          subst haf2eq
                          simp [if_pos hFT]
                        · have haf2eq : af2 = af := by
                            rw [← hg, if_neg (by rw [hafid]; exact hFT)]
                          subst haf2eq
                          simp [if_neg hFT]

/-- A `find?` on a list mapped by an id-preserving function commutes
with the map. -/
theorem find?_map_of_id (l : List Account) (g : Account → Account)
    (hg : ∀ b, (g b).id = b.id) (id2 : Int) :
    (l.map g).find? (fun b => b.id == id2) =
      (l.find? (fun b => b.id == id2)).map g := by
  have hpred : ((fun b => b.id == id2) ∘ g) = (fun b : Account => b.id == id2) := by
    funext b; simp [hg b]
  rw [List.find?_map, hpred]

/-- Two successive atomic balance updates amount to one map adding the
signed delta of each row. -/
theorem applyAdd_applyAdd (l : List Account) (id1 a1 id2 a2 : Int) :
    applyAdd (applyAdd l id1 a1) id2 a2 =
      l.map (fun b => { b with balance :=
        b.balance + (if b.id = id1 then a1 else 0) + (if b.id = id2 then a2 else 0) }) := by
  unfold applyAdd
  rw [List.map_map]
  congr 1
  funext b
  by_cases h1 : b.id = id1 <;> by_cases h2 : b.id = id2
  · have h12 : id1 = id2 := h1.symm.trans h2
    simp [Function.comp, h1, h2, h12]
  · have h12 : ¬ id1 = id2 := fun hh => h2 (h1.trans hh)
    simp [Function.comp, h1, h2, h12]
  · have h12 : ¬ id2 = id1 := fun hh => h1 (h2.trans hh)
    simp [Function.comp, h1, h2, h12]
  · simp [Function.comp, h1, h2]

/-- The two balance updates of a transfer, in whichever order the
source issues them, produce the same per-row signed delta. -/
theorem updatedAccounts_eq (accs : List Account) (f t a : Int) :
    updatedAccounts accs f t a =
      accs.map (fun b => { b with balance :=
        b.balance + (if b.id = f then -a else 0) + (if b.id = t then a else 0) }) := by
  unfold updatedAccounts
  split
  · rw [applyAdd_applyAdd]
  · rw [applyAdd_applyAdd]
    congr 1
    funext b
    by_cases h1 : b.id = f <;> by_cases h2 : b.id = t <;>
      simp [h1, h2] <;> ring

/-- The work function of `TransferTx` succeeds when no failure is
injected and both accounts exist. -/
theorem transferTxWork_runs (arg : TransferTxParams) (ctx : QCtx)
    (af at_ : Account) (h0 : ctx.faults = [])
    (haf : ctx.db.accounts.find? (fun b => b.id == arg.fromAccountID) = some af)
    (hat : ctx.db.accounts.find? (fun b => b.id == arg.toAccountID) = some at_) :
    (transferTxWork arg ctx).2.2 = none := by
  obtain ⟨db, fl, tr⟩ := ctx
  simp only at h0 haf hat
  subst h0
  unfold transferTxWork
  rw [createTransfer_run_ok _ _ _ _ (by rfl)]
  dsimp only
  rw [createEntry_run_ok _ _ _ (by rfl)]
  dsimp only
  rw [createEntry_run_ok _ _ _ (by rfl)]
  dsimp only
  by_cases hlt : arg.fromAccountID < arg.toAccountID
  · rw [if_pos hlt]
    unfold addMoney
    rw [addAccountBalance_run_ok _ _ _ af (by rfl) haf]
    dsimp only
    have hat2 : (applyAdd db.accounts arg.fromAccountID (-arg.amount)).find?
        (fun b => b.id == arg.toAccountID) =
        some (if at_.id = arg.fromAccountID then
          { at_ with balance := at_.balance + -arg.amount } else at_) := by
      rw [find?_applyAdd, hat]; rfl
    rw [addAccountBalance_run_ok _ _ _ _ (by rfl) hat2]
  · rw [if_neg hlt]
    unfold addMoney
    rw [addAccountBalance_run_ok _ _ _ at_ (by rfl) hat]
    dsimp only
    have haf2 : (applyAdd db.accounts arg.toAccountID arg.amount).find?
        (fun b => b.id == arg.fromAccountID) =
        some (if af.id = arg.toAccountID then
          { af with balance := af.balance + arg.amount } else af) := by
      rw [find?_applyAdd, haf]; rfl
    rw [addAccountBalance_run_ok _ _ _ _ (by rfl) haf2]

/-- Whole-transaction success: with a working engine, no injected
failure and both accounts present, `TransferTx` commits and reports no
error. -/
theorem transferTx_runs (eng : Engine) (arg : TransferTxParams) (ctx : QCtx)
    (af at_ : Account)
    (hb : eng.beginFails = false) (hc : eng.commitFails = false)
    (h0 : ctx.faults = [])
    (haf : ctx.db.accounts.find? (fun b => b.id == arg.fromAccountID) = some af)
    (hat : ctx.db.accounts.find? (fun b => b.id == arg.toAccountID) = some at_) :
    TransferTx eng arg ctx = transferTxWork arg ctx ∧
      (TransferTx eng arg ctx).2.2 = none := by
  have hw := transferTxWork_runs arg ctx af at_ h0 haf hat
  have he := execTX_run_ok eng ctx defaultTxResult (transferTxWork arg) hb hc hw
  unfold TransferTx
  rw [he]
  exact ⟨rfl, hw⟩

/-- On any reported error, `TransferTx` leaves the durable database
untouched. -/
theorem transferTx_err_db (eng : Engine) (arg : TransferTxParams) (ctx : QCtx)
    (e : GoError) (h : (TransferTx eng arg ctx).2.2 = some e) :
    (TransferTx eng arg ctx).1.db = ctx.db :=
  execTX_db_of_err eng ctx defaultTxResult (transferTxWork arg) e h

/-- On success, `TransferTx` is exactly its committed work function. -/
theorem transferTx_ok_eq (eng : Engine) (arg : TransferTxParams) (ctx : QCtx)
    (h : (TransferTx eng arg ctx).2.2 = none) :
    TransferTx eng arg ctx = transferTxWork arg ctx :=
  (execTX_of_ok eng ctx defaultTxResult (transferTxWork arg) h).2.2

/-- C1: Atomicity of a transfer attempt.  If any step of `TransferTx`
fails, `execTX` rolls the unit of work back and the durable database is
exactly the initial one; if no step fails, the durable database gains
the transfer row, the two entries and both balance deltas together.  No
reachable outcome persists only part of the four effects. -/
theorem transferTx_atomicity (eng : Engine) (arg : TransferTxParams) (ctx : QCtx) :
    match TransferTx eng arg ctx with
    | (ctx1, _, some _) => ctx1.db = ctx.db
    | (ctx1, _, none) =>
        ctx1.db.transfers = ctx.db.transfers ++
          [⟨ctx.db.nextTransferId, arg.fromAccountID, arg.toAccountID, arg.amount⟩] ∧
        ctx1.db.entries = ctx.db.entries ++
          [⟨ctx.db.nextEntryId, arg.fromAccountID, -arg.amount⟩,
           ⟨ctx.db.nextEntryId + 1, arg.toAccountID, arg.amount⟩] ∧
        ctx1.db.accounts = ctx.db.accounts.map (fun b => { b with balance :=
          b.balance + (if b.id = arg.fromAccountID then -arg.amount else 0)
            + (if b.id = arg.toAccountID then arg.amount else 0) }) := by
  rcases hres : TransferTx eng arg ctx with ⟨ctx1, r, e?⟩
  cases e? with
  | some e =>
      have hdb := transferTx_err_db eng arg ctx e (by rw [hres])
      rw [hres] at hdb
      simpa using hdb
  | none =>
      have hok : (TransferTx eng arg ctx).2.2 = none := by rw [hres]
      have heq := transferTx_ok_eq eng arg ctx hok
      obtain ⟨af, at_, haf, hat, hdb, htr, hr⟩ :=
        transferTxWork_ok_char arg ctx (by rw [← heq, hres])
      rw [← heq, hres] at hdb
      simp only at hdb ⊢
      rw [hdb, updatedAccounts_eq]
      exact ⟨rfl, rfl, rfl⟩

/-- C7: Rollback error combination in `execTX`.  When the work function
fails with `e` and rollback succeeds, `execTX` returns exactly `e` and
the durable state is unchanged; when rollback also fails, it returns
the combined error holding both `e` and the rollback error. -/
theorem execTX_error_paths {ρ : Type} (eng : Engine) (ctx ctx1 : QCtx) (r0 r : ρ)
    (fn : QCtx → QCtx × ρ × Option GoError) (e : GoError)
    (hb : eng.beginFails = false) (hfn : fn ctx = (ctx1, r, some e)) :
    (eng.rollbackFails = false →
      execTX eng ctx r0 fn = ({ ctx1 with db := ctx.db }, r, some e)) ∧
    (eng.rollbackFails = true →
      execTX eng ctx r0 fn = ({ ctx1 with db := ctx.db }, r, some (.txRb e eng.rbErr))) := by
  unfold execTX
  rw [hb, hfn]
  constructor <;> intro hrb <;> simp [hrb]

/-- C9: No overdraft floor.  A state in which the source account's
balance (10) is below the transfer amount (30) still yields a
successful `TransferTx` that drives the account negative. -/
theorem transferTx_overdraft :
    balanceOf (⟨[⟨1, "alice", 10, "USD"⟩, ⟨2, "bob", 50, "USD"⟩], [], [], 1, 1⟩ : DBState) 1 = 10 ∧
    (10 : Int) < 30 ∧
    (TransferTx ⟨false, .engineErr, false, .engineErr, false, .engineErr⟩ ⟨1, 2, 30⟩
        ⟨⟨[⟨1, "alice", 10, "USD"⟩, ⟨2, "bob", 50, "USD"⟩], [], [], 1, 1⟩, [], []⟩).2.2 = none ∧
    balanceOf (TransferTx ⟨false, .engineErr, false, .engineErr, false, .engineErr⟩ ⟨1, 2, 30⟩
        ⟨⟨[⟨1, "alice", 10, "USD"⟩, ⟨2, "bob", 50, "USD"⟩], [], [], 1, 1⟩, [], []⟩).1.db 1 = -20 ∧
    (-20 : Int) < 0 := by
  refine ⟨by decide, by decide, by decide, by decide, by decide⟩

/-- Lookup in the accounts list after the two balance updates of one
transfer: the original lookup with the row's signed delta applied. -/
theorem find?_updatedAccounts (accs : List Account) (f t a X : Int) :
    (updatedAccounts accs f t a).find? (fun b => b.id == X) =
      (accs.find? (fun b => b.id == X)).map (fun b => { b with balance :=
        b.balance + (if b.id = f then -a else 0) + (if b.id = t then a else 0) }) := by
  rw [updatedAccounts_eq]
  exact find?_map_of_id accs (fun b => { b with balance :=
    b.balance + (if b.id = f then -a else 0) + (if b.id = t then a else 0) })
    (fun b => rfl) X

/-- C2: Conservation per transfer.  A successful transfer between two
distinct accounts debits the source by exactly the amount, credits the
destination by exactly the amount, preserves the sum of the two
balances, and reports matching snapshots and entry amounts. -/
theorem transferTx_conservation (eng : Engine) (arg : TransferTxParams) (ctx : QCtx)
    (hne : arg.fromAccountID ≠ arg.toAccountID)
    (hok : (TransferTx eng arg ctx).2.2 = none) :
    balanceOf (TransferTx eng arg ctx).1.db arg.fromAccountID
        = balanceOf ctx.db arg.fromAccountID - arg.amount ∧
    balanceOf (TransferTx eng arg ctx).1.db arg.toAccountID
        = balanceOf ctx.db arg.toAccountID + arg.amount ∧
    balanceOf (TransferTx eng arg ctx).1.db arg.fromAccountID
        + balanceOf (TransferTx eng arg ctx).1.db arg.toAccountID
        = balanceOf ctx.db arg.fromAccountID + balanceOf ctx.db arg.toAccountID ∧
    (TransferTx eng arg ctx).2.1.fromAccount.balance
        = balanceOf ctx.db arg.fromAccountID - arg.amount ∧
    (TransferTx eng arg ctx).2.1.toAccount.balance
        = balanceOf ctx.db arg.toAccountID + arg.amount ∧
    (TransferTx eng arg ctx).2.1.fromEntry.amount = -arg.amount ∧
    (TransferTx eng arg ctx).2.1.toEntry.amount = arg.amount ∧
    (TransferTx eng arg ctx).2.1.transfer.amount = arg.amount := by
  have heq := transferTx_ok_eq eng arg ctx hok
  obtain ⟨af, at_, haf, hat, hdb, htr, hr⟩ :=
    transferTxWork_ok_char arg ctx (by rw [← heq]; exact hok)
  have hafid : af.id = arg.fromAccountID := by simpa using List.find?_some haf
  have hatid : at_.id = arg.toAccountID := by simpa using List.find?_some hat
  have hbF : balanceOf ctx.db arg.fromAccountID = af.balance := by
    unfold balanceOf; rw [haf]
  have hbT : balanceOf ctx.db arg.toAccountID = at_.balance := by
    unfold balanceOf; rw [hat]
  have hbF2 : balanceOf (transferTxWork arg ctx).1.db arg.fromAccountID
      = af.balance - arg.amount := by
    rw [hdb]
    simp only [balanceOf, find?_updatedAccounts, haf, Option.map_some]
    simp [hafid, hne]
    ring
  have hbT2 : balanceOf (transferTxWork arg ctx).1.db arg.toAccountID
      = at_.balance + arg.amount := by
    rw [hdb]
    simp only [balanceOf, find?_updatedAccounts, hat, Option.map_some]
    simp [hatid, hne.symm]
  rw [heq, hr, hbF, hbT, hbF2, hbT2]
  refine ⟨rfl, rfl, by ring, ?_, ?_, rfl, rfl, rfl⟩
  · rw [if_neg hne]; simp; ring
  · simp

/-- C5: Entry pairing.  A successful transfer appends exactly two
entries: the debit entry `-amount` on the source account and the credit
entry `+amount` on the destination account; the two reported entry
amounts are additive inverses and carry the transfer's magnitude. -/
theorem transferTx_entry_pairing (eng : Engine) (arg : TransferTxParams) (ctx : QCtx)
    (hok : (TransferTx eng arg ctx).2.2 = none) :
    (TransferTx eng arg ctx).1.db.entries =
      ctx.db.entries ++ [⟨ctx.db.nextEntryId, arg.fromAccountID, -arg.amount⟩,
                         ⟨ctx.db.nextEntryId + 1, arg.toAccountID, arg.amount⟩] ∧
    (TransferTx eng arg ctx).1.db.entries.length = ctx.db.entries.length + 2 ∧
    (TransferTx eng arg ctx).2.1.fromEntry.accountId = arg.fromAccountID ∧
    (TransferTx eng arg ctx).2.1.fromEntry.amount = -arg.amount ∧
    (TransferTx eng arg ctx).2.1.toEntry.accountId = arg.toAccountID ∧
    (TransferTx eng arg ctx).2.1.toEntry.amount = arg.amount ∧
    (TransferTx eng arg ctx).2.1.fromEntry.amount
      = -(TransferTx eng arg ctx).2.1.toEntry.amount ∧
    (TransferTx eng arg ctx).2.1.toEntry.amount
      = (TransferTx eng arg ctx).2.1.transfer.amount := by
  have heq := transferTx_ok_eq eng arg ctx hok
  obtain ⟨af, at_, haf, hat, hdb, htr, hr⟩ :=
    transferTxWork_ok_char arg ctx (by rw [← heq]; exact hok)
  rw [heq, hdb, hr]
  simp

/-- C10: Same-account result snapshot anomaly.  When source and
destination are the same account with starting balance `b`, a
successful `TransferTx` reports `ToAccount` with balance `b + amount`
(the snapshot after the first of the two offsetting updates) and
`FromAccount` with balance `b`, while the durable balance stays `b`. -/
theorem transferTx_same_account_snapshot (eng : Engine) (arg : TransferTxParams)
    (ctx : QCtx) (acc : Account)
    (hsame : arg.fromAccountID = arg.toAccountID)
    (hacc : ctx.db.accounts.find? (fun b => b.id == arg.fromAccountID) = some acc)
    (hok : (TransferTx eng arg ctx).2.2 = none) :
    (TransferTx eng arg ctx).2.1.toAccount.balance = acc.balance + arg.amount ∧
    (TransferTx eng arg ctx).2.1.fromAccount.balance = acc.balance ∧
    (TransferTx eng arg ctx).2.1.toAccount.id = arg.fromAccountID ∧
    (TransferTx eng arg ctx).2.1.fromAccount.id = arg.fromAccountID ∧
    balanceOf (TransferTx eng arg ctx).1.db arg.fromAccountID = acc.balance := by
  have heq := transferTx_ok_eq eng arg ctx hok
  obtain ⟨af, at_, haf, hat, hdb, htr, hr⟩ :=
    transferTxWork_ok_char arg ctx (by rw [← heq]; exact hok)
  have haccid : acc.id = arg.fromAccountID := by simpa using List.find?_some hacc
  have hafacc : af = acc := by
    rw [haf] at hacc; exact Option.some.inj hacc
  have hatacc : at_ = acc := by
    rw [← hsame] at hat
    rw [hat] at hacc; exact Option.some.inj hacc
  subst hafacc hatacc
  refine ⟨?_, ?_, ?_, ?_, ?_⟩
  · rw [heq, hr]
  · rw [heq, hr]
    simp only [if_pos hsame]
    simp
  · rw [heq, hr]
    simp [haccid, hsame]
  · rw [heq, hr]
    rw [if_pos hsame]
    simpa using haccid
  · rw [heq, hdb]
    simp only [balanceOf, find?_updatedAccounts, hacc, Option.map_some]
    simp [haccid, hsame]

/-- C8: Same-account degenerate case.  A request with equal source and
destination is not rejected: with a working engine and the account
present it completes, the two balance adjustments target that single
account with `+amount` and `-amount`, and the durable balance is
unchanged. -/
theorem transferTx_same_account_net_zero (eng : Engine) (arg : TransferTxParams)
    (ctx : QCtx) (acc : Account)
    (hsame : arg.fromAccountID = arg.toAccountID)
    (hb : eng.beginFails = false) (hc : eng.commitFails = false)
    (h0 : ctx.faults = [])
    (hacc : ctx.db.accounts.find? (fun b => b.id == arg.fromAccountID) = some acc) :
    (TransferTx eng arg ctx).2.2 = none ∧
    balanceOf (TransferTx eng arg ctx).1.db arg.fromAccountID
      = balanceOf ctx.db arg.fromAccountID ∧
    ((TransferTx eng arg ctx).1.trace.drop ctx.trace.length).filterMap addEv
      = [(arg.fromAccountID, arg.amount), (arg.fromAccountID, -arg.amount)] := by
  have hat : ctx.db.accounts.find? (fun b => b.id == arg.toAccountID) = some acc := by
    rw [← hsame]; exact hacc
  obtain ⟨heq, hok⟩ := transferTx_runs eng arg ctx acc acc hb hc h0 hacc hat
  obtain ⟨af, at_, haf, hat2, hdb, htr, hr⟩ :=
    transferTxWork_ok_char arg ctx (by rw [← heq]; exact hok)
  have haccid : acc.id = arg.fromAccountID := by simpa using List.find?_some hacc
  have hnlt : ¬ arg.fromAccountID < arg.toAccountID := by rw [← hsame]; exact lt_irrefl _
  refine ⟨hok, ?_, ?_⟩
  · rw [heq, hdb]
    have hbal : balanceOf ctx.db arg.fromAccountID = acc.balance := by
      unfold balanceOf; rw [hacc]
    rw [hbal]
    simp only [balanceOf, find?_updatedAccounts, hacc, Option.map_some]
    simp [haccid, hsame]
  · rw [heq, htr, if_neg hnlt]
    rw [List.append_assoc, List.drop_left]
    simp [addEv, hsame]

/-- C4: Deadlock-avoidance ordering.  For distinct account ids, a
completed `TransferTx` issues its two `AddAccountBalance` calls with
the numerically smaller id first and the larger id second, regardless
of transfer direction. -/
theorem transferTx_deadlock_order (eng : Engine) (arg : TransferTxParams)
    (db : DBState) (fl : List Bool)
    (hne : arg.fromAccountID ≠ arg.toAccountID)
    (hok : (TransferTx eng arg ⟨db, fl, []⟩).2.2 = none) :
    ((TransferTx eng arg ⟨db, fl, []⟩).1.trace.filterMap addEv).map Prod.fst
      = [min arg.fromAccountID arg.toAccountID,
         max arg.fromAccountID arg.toAccountID] := by
  have heq := transferTx_ok_eq eng arg ⟨db, fl, []⟩ hok
  obtain ⟨af, at_, haf, hat, hdb, htr, hr⟩ :=
    transferTxWork_ok_char arg _ (by rw [← heq]; exact hok)
  rw [heq, htr]
  by_cases hlt : arg.fromAccountID < arg.toAccountID
  · rw [if_pos hlt]
    simp [addEv, min_eq_left hlt.le, max_eq_right hlt.le]
  · have hlt2 : arg.toAccountID < arg.fromAccountID :=
      lt_of_le_of_ne (not_lt.mp hlt) (Ne.symm hne)
    rw [if_neg hlt]
    simp [addEv, min_eq_right hlt2.le, max_eq_left hlt2.le]

/-- C6: Zero/negative-amount rejection.  The POST /transfers handler
rejects a request whose amount is zero or negative with status 400
before issuing any query: the state, including the trace of issued
calls, is untouched. -/
theorem createTransfer_rejects_nonpositive (isSupported : String → Bool)
    (authPayload : Option String) (eng : Engine) (ctx : QCtx)
    (req : transferRequest) (h : req.amount ≤ 0) :
    createTransfer isSupported authPayload eng ctx req = (400, ctx) := by
  unfold createTransfer
  rw [if_pos h]

/-- One `TransferTx` call, successful or not, preserves the
balance-reconciliation invariant. -/
theorem reconciled_step (eng : Engine) (arg : TransferTxParams) (ctx : QCtx)
    (h : Reconciled ctx.db) : Reconciled (TransferTx eng arg ctx).1.db := by
  rcases he : (TransferTx eng arg ctx).2.2 with _ | e
  · have heq := transferTx_ok_eq eng arg ctx he
    obtain ⟨af, at_, haf, hat, hdb, htr, hr⟩ :=
      transferTxWork_ok_char arg ctx (by rw [← heq]; exact he)
    rw [heq, hdb]
    intro b hb
    simp only [updatedAccounts_eq] at hb
    obtain ⟨b0, hb0, rfl⟩ := List.mem_map.mp hb
    have hbal := h b0 hb0
    simp only [entriesSum, List.filter_append, List.map_append, List.sum_append] at *
    by_cases h1 : b0.id = arg.fromAccountID <;> by_cases h2 : b0.id = arg.toAccountID
    · have h12 : arg.fromAccountID = arg.toAccountID := h1.symm.trans h2
      simp [h1, h2, h12, hbal]
      try ring
    · have h12 : ¬ arg.fromAccountID = arg.toAccountID := fun hh => h2 (h1.trans hh)
      have h12s : ¬ arg.toAccountID = arg.fromAccountID := fun hh => h12 hh.symm
      have h2s : ¬ arg.toAccountID = b0.id := fun hh => h2 hh.symm
      simp [h1, h2, h12, h12s, h2s, hbal]
      try ring
    · have h12 : ¬ arg.toAccountID = arg.fromAccountID := fun hh => h1 (h2.trans hh)
      have h12s : ¬ arg.fromAccountID = arg.toAccountID := fun hh => h12 hh.symm
      have h1s : ¬ arg.fromAccountID = b0.id := fun hh => h1 hh.symm
      simp [h1, h2, h12, h12s, h1s, hbal]
      try ring
    · have h1s : ¬ arg.fromAccountID = b0.id := fun hh => h1 hh.symm
      have h2s : ¬ arg.toAccountID = b0.id := fun hh => h2 hh.symm
      simp [h1, h2, h1s, h2s, hbal]
      try ring
  · rw [transferTx_err_db eng arg ctx e he]
    exact h

/-- C3: Balance reconciliation.  Starting from a state where every
account's balance equals the sum of its entries' amounts, any sequence
of successful `TransferTx` calls preserves that invariant. -/
theorem transferTx_reconciliation (steps : List (Engine × TransferTxParams))
    (ctx : QCtx) (h : Reconciled ctx.db)
    (hok : runTransfersOk steps ctx = true) :
    Reconciled (runTransfers steps ctx).db := by
  induction steps generalizing ctx with
  | nil => simpa [runTransfers] using h
  | cons s rest ih =>
      obtain ⟨eng, arg⟩ := s
      rcases hres : TransferTx eng arg ctx with ⟨ctx1, r, e?⟩
      unfold runTransfersOk at hok
      rw [hres] at hok
      cases e? with
      | some e => simp at hok
      | none =>
          unfold runTransfers
          rw [hres]
          refine ih ctx1 ?_ (by simpa using hok)
          have hstep := reconciled_step eng arg ctx h
          rwa [hres] at hstep

/-- Concrete conservation run: accounts 1 and 2 with balances 100 and
50, transfer of 30 leaves 70 and 80 and entries -30 and +30. -/
theorem transferTx_conservation_witness :
    (balanceOf (TransferTx engOK ⟨1, 2, 30⟩ ctxAB).1.db 1
        = balanceOf ctxAB.db 1 - 30 ∧
      balanceOf (TransferTx engOK ⟨1, 2, 30⟩ ctxAB).1.db 2
        = balanceOf ctxAB.db 2 + 30 ∧
      balanceOf (TransferTx engOK ⟨1, 2, 30⟩ ctxAB).1.db 1
          + balanceOf (TransferTx engOK ⟨1, 2, 30⟩ ctxAB).1.db 2
        = balanceOf ctxAB.db 1 + balanceOf ctxAB.db 2 ∧
      (TransferTx engOK ⟨1, 2, 30⟩ ctxAB).2.1.fromAccount.balance
        = balanceOf ctxAB.db 1 - 30 ∧
      (TransferTx engOK ⟨1, 2, 30⟩ ctxAB).2.1.toAccount.balance
        = balanceOf ctxAB.db 2 + 30 ∧
      (TransferTx engOK ⟨1, 2, 30⟩ ctxAB).2.1.fromEntry.amount = -30 ∧
      (TransferTx engOK ⟨1, 2, 30⟩ ctxAB).2.1.toEntry.amount = 30 ∧
      (TransferTx engOK ⟨1, 2, 30⟩ ctxAB).2.1.transfer.amount = 30) ∧
    (TransferTx engOK ⟨1, 2, 30⟩ ctxAB).2.1.fromAccount.balance = 70 ∧
    (TransferTx engOK ⟨1, 2, 30⟩ ctxAB).2.1.toAccount.balance = 80 :=
  ⟨transferTx_conservation engOK ⟨1, 2, 30⟩ ctxAB (by decide) (by decide),
   by decide, by decide⟩

/-- Concrete reconciliation run: a reconciled two-account ledger stays
reconciled after a successful transfer of 30. -/
theorem transferTx_reconciliation_witness :
    Reconciled (runTransfers [(engOK, ⟨1, 2, 30⟩)] ctxRec).db :=
  transferTx_reconciliation [(engOK, ⟨1, 2, 30⟩)] ctxRec (by decide) (by decide)

/-- Concrete deadlock-ordering run: transferring from account 2 to
account 1 still adjusts account 1 first. -/
theorem transferTx_deadlock_order_witness :
    ((TransferTx engOK ⟨2, 1, 30⟩ ⟨ctxAB.db, [], []⟩).1.trace.filterMap addEv).map Prod.fst
      = [min 2 1, max 2 1] :=
  transferTx_deadlock_order engOK ⟨2, 1, 30⟩ ctxAB.db [] (by decide) (by decide)

/-- Concrete entry-pairing run for a transfer of 30 from account 1 to
account 2. -/
theorem transferTx_entry_pairing_witness :
    (TransferTx engOK ⟨1, 2, 30⟩ ctxAB).1.db.entries =
      ctxAB.db.entries ++ [⟨ctxAB.db.nextEntryId, 1, -30⟩, ⟨ctxAB.db.nextEntryId + 1, 2, 30⟩] ∧
    (TransferTx engOK ⟨1, 2, 30⟩ ctxAB).1.db.entries.length = ctxAB.db.entries.length + 2 ∧
    (TransferTx engOK ⟨1, 2, 30⟩ ctxAB).2.1.fromEntry.accountId = 1 ∧
    (TransferTx engOK ⟨1, 2, 30⟩ ctxAB).2.1.fromEntry.amount = -30 ∧
    (TransferTx engOK ⟨1, 2, 30⟩ ctxAB).2.1.toEntry.accountId = 2 ∧
    (TransferTx engOK ⟨1, 2, 30⟩ ctxAB).2.1.toEntry.amount = 30 ∧
    (TransferTx engOK ⟨1, 2, 30⟩ ctxAB).2.1.fromEntry.amount
      = -(TransferTx engOK ⟨1, 2, 30⟩ ctxAB).2.1.toEntry.amount ∧
    (TransferTx engOK ⟨1, 2, 30⟩ ctxAB).2.1.toEntry.amount
      = (TransferTx engOK ⟨1, 2, 30⟩ ctxAB).2.1.transfer.amount :=
  transferTx_entry_pairing engOK ⟨1, 2, 30⟩ ctxAB (by decide)

/-- Concrete rejected requests: amount 0 and amount -5 both yield 400
with the state untouched. -/
theorem createTransfer_rejects_nonpositive_witness :
    createTransfer (fun c => c == "USD") (some "alice") engOK ctxAB ⟨1, 2, 0, "USD"⟩
      = (400, ctxAB) ∧
    createTransfer (fun c => c == "USD") (some "alice") engOK ctxAB ⟨1, 2, -5, "USD"⟩
      = (400, ctxAB) :=
  ⟨createTransfer_rejects_nonpositive (fun c => c == "USD") (some "alice") engOK ctxAB
      ⟨1, 2, 0, "USD"⟩ (by decide),
   createTransfer_rejects_nonpositive (fun c => c == "USD") (some "alice") engOK ctxAB
      ⟨1, 2, -5, "USD"⟩ (by decide)⟩

/-- Concrete rollback runs: a failing work function with a succeeding
rollback returns the business error unchanged; with a failing rollback
it returns the combined error. -/
theorem execTX_error_paths_witness :
    (execTX engOK ctxAB (0 : Nat) (fun c => (c, 1, some (.errMsg "boom")))
      = ({ ctxAB with db := ctxAB.db }, 1, some (.errMsg "boom"))) ∧
    (execTX ⟨false, .engineErr, true, .errMsg "rb", false, .engineErr⟩ ctxAB (0 : Nat)
        (fun c => (c, 1, some (.errMsg "boom")))
      = ({ ctxAB with db := ctxAB.db }, 1,
         some (.txRb (.errMsg "boom") (.errMsg "rb")))) :=
  ⟨(execTX_error_paths engOK ctxAB ctxAB 0 1
      (fun c => (c, 1, some (.errMsg "boom"))) (.errMsg "boom") rfl rfl).1 rfl,
   (execTX_error_paths ⟨false, .engineErr, true, .errMsg "rb", false, .engineErr⟩ ctxAB ctxAB 0 1
      (fun c => (c, 1, some (.errMsg "boom"))) (.errMsg "boom") rfl rfl).2 rfl⟩

/-- Concrete same-account run: a transfer of 30 from account 1 to
itself completes and leaves the balance at 100, after issuing +30 then
-30 on account 1. -/
theorem transferTx_same_account_net_zero_witness :
    (TransferTx engOK ⟨1, 1, 30⟩ ctxAB).2.2 = none ∧
    balanceOf (TransferTx engOK ⟨1, 1, 30⟩ ctxAB).1.db 1 = balanceOf ctxAB.db 1 ∧
    ((TransferTx engOK ⟨1, 1, 30⟩ ctxAB).1.trace.drop ctxAB.trace.length).filterMap addEv
      = [(1, 30), (1, -30)] :=
  transferTx_same_account_net_zero engOK ⟨1, 1, 30⟩ ctxAB ⟨1, "alice", 100, "USD"⟩
    (by decide) (by decide) (by decide) (by decide) (by decide)

/-- Concrete same-account snapshot run: transferring 30 from account 1
to itself reports ToAccount balance 130 and FromAccount balance 100
while the durable balance stays 100. -/
theorem transferTx_same_account_snapshot_witness :
    (TransferTx engOK ⟨1, 1, 30⟩ ctxAB).2.1.toAccount.balance = 100 + 30 ∧
    (TransferTx engOK ⟨1, 1, 30⟩ ctxAB).2.1.fromAccount.balance = 100 ∧
    (TransferTx engOK ⟨1, 1, 30⟩ ctxAB).2.1.toAccount.id = 1 ∧
    (TransferTx engOK ⟨1, 1, 30⟩ ctxAB).2.1.fromAccount.id = 1 ∧
    balanceOf (TransferTx engOK ⟨1, 1, 30⟩ ctxAB).1.db 1 = 100 :=
  transferTx_same_account_snapshot engOK ⟨1, 1, 30⟩ ctxAB ⟨1, "alice", 100, "USD"⟩
    (by decide) (by decide) (by decide)
